import Mathlib

set_option autoImplicit false

namespace BasicLog

/-- Severity levels of the C++ enum `Logging::LogLevel` in `basic_log.h`. -/
inductive LogLevel where
  | DEBUG
  | INFO
  | WARN
  | ERROR
  | FATAL
deriving DecidableEq, Repr

/-- Numeric value of each enum constant (DEBUG = 0 .. FATAL = 4), the values the
C++ relational comparison on the enum uses. -/
def LogLevel.toNat : LogLevel → Nat
  | .DEBUG => 0
  | .INFO => 1
  | .WARN => 2
  | .ERROR => 3
  | .FATAL => 4

/-- The comparison `Logging::level < Logging::GetCurrentLevel()` performed by the
`LOG(level)` macro. -/
def LogLevel.lt (a b : LogLevel) : Bool := decide (a.toNat < b.toNat)

/-- One write to the standard error stream: the bytes written, and whether the
stream was flushed afterwards (`std::endl` writes a newline and then flushes). -/
structure StderrWrite where
  text : String
  flushed : Bool
deriving DecidableEq, Repr

/-- State of one `Logging` object: `oss` models the
`std::optional<std::ostringstream>` member (`some buffer` when the record is
active, `none` when inert), and `no_space` is the one-shot separator
suppression flag. A default-constructed `Logging()` has both fields at their
defaults. -/
structure Logging where
  no_space : Bool := false
  oss : Option String := none
deriving DecidableEq, Repr

/-- The header the active constructor writes:
`[level_str][time][file:line]:`. The `std::put_time` rendering of the
construction-time wall clock is passed in as the `time` string. -/
def header (level_str time file : String) (line : Int) : String :=
  "[" ++ level_str ++ "]" ++ "[" ++ time ++ "]" ++ "[" ++ file ++ ":" ++ toString line ++ "]:"

/-- The record produced by `LOG(level)`: when the severity is strictly below the
current level the default (inert) constructor runs, otherwise the active
constructor allocates the stream and writes the header. -/
def mkLogging (severity threshold : LogLevel) (level_str file : String) (line : Int)
    (time : String) : Logging :=
  if LogLevel.lt severity threshold then {}
  else { no_space := false, oss := some (header level_str time file line) }

/-- The generic member `operator<<(const T&)`: on an inert record (no stream)
nothing happens; on an active record, the one-shot flag is consumed if set,
otherwise a single separating space is written, and then the rendering of the
value is appended. -/
def Logging.append (log : Logging) (s : String) : Logging :=
  match log.oss with
  | none => log
  | some buf =>
    if log.no_space then { log with no_space := false, oss := some (buf ++ s) }
    else { log with oss := some (buf ++ " " ++ s) }

/-- The manipulator `Logging::NoSpace`: sets the one-shot suppression flag
(unconditionally, even on an inert record). -/
def Logging.noSpace (log : Logging) : Logging := { log with no_space := true }

/-- The element loop of `Logging::LogSequence`: stream the element, and stream a
comma whenever another element follows (`std::next(it) != end`). -/
def Logging.seqLoop : Logging → List String → Logging
  | log, [] => log
  | log, [e] => log.append e
  | log, e :: e2 :: rest => Logging.seqLoop ((log.append e).append ",") (e2 :: rest)

/-- `Logging::LogSequence(name, begin, end)`:
`*this << name << NoSpace << "{"`, the element loop, then `*this << "}"`. -/
def Logging.logSequence (log : Logging) (name : String) (elems : List String) : Logging :=
  (Logging.seqLoop (((log.append name).noSpace).append "\x7b") elems).append "\x7d"

/-- The entry loop of `Logging::LogMapping`: stream the key, then `":"`, then the
value, and stream a comma whenever another entry follows. -/
def Logging.mapLoop : Logging → List (String × String) → Logging
  | log, [] => log
  | log, [e] => ((log.append e.1).append ":").append e.2
  | log, e :: e2 :: rest =>
    Logging.mapLoop ((((log.append e.1).append ":").append e.2).append ",") (e2 :: rest)

/-- `Logging::LogMapping(name, begin, end)`:
`*this << name << NoSpace << "{"`, the entry loop, then `*this << "}"`. -/
def Logging.logMapping (log : Logging) (name : String)
    (entries : List (String × String)) : Logging :=
  (Logging.mapLoop (((log.append name).noSpace).append "\x7b") entries).append "\x7d"

/-- The free `operator<<(Logging&, bool)`: one generic append of the literal text
`true` or `false`. -/
def Logging.appendBool (log : Logging) (b : Bool) : Logging :=
  log.append (if b then "true" else "false")

/-- The free `operator<<(Logging&, const std::pair<K, V>&)`: five chained generic
appends. -/
def Logging.appendPair (log : Logging) (f s : String) : Logging :=
  ((((log.append "std::pair\x7b").append f).append ",").append s).append "\x7d"

/-- The free `operator<<(Logging&, const std::optional<T>&)`: three chained
generic appends for a present value, a single append for an absent one. -/
def Logging.appendOptional (log : Logging) (v : Option String) : Logging :=
  match v with
  | some s => ((log.append "std::optional\x7b").append s).append "\x7d"
  | none => log.append "std::optional\x7b nullopt \x7d"

/-- The chrono duration types that have their own streaming overload in
`basic_log.h`. -/
inductive ChronoUnit where
  | seconds
  | milliseconds
  | microseconds
  | nanoseconds
  | hours
  | minutes
deriving DecidableEq, Repr

/-- The unit word each chrono overload streams after the count. -/
def ChronoUnit.word : ChronoUnit → String
  | .seconds => "seconds"
  | .milliseconds => "milliseconds"
  | .microseconds => "microseconds"
  | .nanoseconds => "nanoseconds"
  | .hours => "hours"
  | .minutes => "minutes"

/-- The free `operator<<(Logging&, std::chrono::unit)`: two chained generic
appends, the stored count `value.count()` and then the unit word. -/
def Logging.appendDuration (log : Logging) (u : ChronoUnit) (count : Int) : Logging :=
  (log.append (toString count)).append u.word

/-- One streaming operation on a record; each constructor corresponds to one of
the `<<` overloads of `basic_log.h`. Value renderings of scalar payloads are
taken at the string level. -/
inductive LogOp where
  | val (s : String)
  | noSep
  | boolVal (b : Bool)
  | pairVal (f s : String)
  | seq (name : String) (elems : List String)
  | map (name : String) (entries : List (String × String))
  | opt (v : Option String)
  | dur (u : ChronoUnit) (count : Int)
deriving DecidableEq, Repr

/-- Apply one streaming operation to a record. -/
def Logging.applyOp (log : Logging) : LogOp → Logging
  | .val s => log.append s
  | .noSep => log.noSpace
  | .boolVal b => log.appendBool b
  | .pairVal f s => log.appendPair f s
  | .seq n es => log.logSequence n es
  | .map n es => log.logMapping n es
  | .opt v => log.appendOptional v
  | .dur u c => log.appendDuration u c

/-- Run a chain of streaming operations left to right, the order in which
chained `<<` calls execute. -/
def Logging.runOps (log : Logging) : List LogOp → Logging
  | [] => log
  | op :: rest => Logging.runOps (log.applyOp op) rest

/-- The destructor `Logging::~Logging`: an inert record returns at once and
writes nothing; an active record writes its buffer followed by `std::endl`
(a newline, then a flush) to `std::cerr`. -/
def Logging.destruct (log : Logging) : Option StderrWrite :=
  match log.oss with
  | none => none
  | some buf => some { text := buf ++ "\n", flushed := true }

/-- The bytes a destructor call puts on the standard error stream. -/
def outBytes (w : Option StderrWrite) : String :=
  match w with
  | none => ""
  | some x => x.text

/-- Whether a record is active: its optional stream holds a buffer. -/
def Logging.isActive (log : Logging) : Bool := log.oss.isSome

/-- `Logging::BasicConfig(level)`: stores the given level into the process-wide
current level. -/
def BasicConfig (level : LogLevel) (_current : LogLevel) : LogLevel := level

/-- `Logging::GetCurrentLevel()`: reads the process-wide current level. -/
def GetCurrentLevel (current : LogLevel) : LogLevel := current

/-- A command issued after a record has been constructed: change the
process-wide level via `BasicConfig`, or stream one value onto the record. -/
inductive SessionCmd where
  | setLevel (l : LogLevel)
  | stream (op : LogOp)
deriving DecidableEq, Repr

/-- Process state while a record is in flight: the global current level and the
record. -/
structure ProcState where
  current_level : LogLevel
  record : Logging
deriving DecidableEq, Repr

/-- One step of a session: `BasicConfig` touches only the level; a streaming
operator touches only the record and reads no global state. -/
def stepCmd (s : ProcState) : SessionCmd → ProcState
  | .setLevel l => { s with current_level := BasicConfig l s.current_level }
  | .stream op => { s with record := s.record.applyOp op }

/-- The streaming operations of a command list, in order. -/
def streamOps (cmds : List SessionCmd) : List LogOp :=
  cmds.filterMap fun c =>
    match c with
    | .setLevel _ => none
    | .stream op => some op

/-- A whole statement lifetime: construct the record under the initial level as
the `LOG` macro does, run the interleaved level changes and appends, then
destruct the record. -/
def runSession (t0 severity : LogLevel) (level_str file : String) (line : Int)
    (time : String) (cmds : List SessionCmd) : Option StderrWrite :=
  (cmds.foldl stepCmd
    { current_level := t0, record := mkLogging severity t0 level_str file line time }).record.destruct

/-- Whether an operation is a generic value append or a no-separator request
(the operations the chained-append claim quantifies over). -/
def LogOp.isGen : LogOp → Bool
  | .val _ => true
  | .noSep => true
  | _ => false

/-- Spec-level rendering of a chain of generic appends, given the incoming state
of the suppression flag: every value is preceded by one separating space,
suppressed exactly once immediately after a no-separator request. -/
def renderGen : Bool → List LogOp → String
  | _, [] => ""
  | _, .noSep :: rest => renderGen true rest
  | flag, .val s :: rest => (if flag then "" else " ") ++ s ++ renderGen false rest
  | flag, _ :: rest => renderGen flag rest

/-- State of the suppression flag after a chain of generic appends. -/
def genFlagEnd : Bool → List LogOp → Bool
  | f, [] => f
  | _, .noSep :: rest => genFlagEnd true rest
  | _, .val _ :: rest => genFlagEnd false rest
  | f, _ :: rest => genFlagEnd f rest

/-- Spec-level body of a rendered sequence or set: each element preceded by one
space, consecutive elements separated by a space and a comma. -/
def seqBody : List String → String
  | [] => ""
  | [e] => " " ++ e
  | e :: e2 :: rest => " " ++ e ++ " " ++ "," ++ seqBody (e2 :: rest)

/-- Spec-level body of a rendered mapping: each of key, colon and value preceded
by one space, consecutive entries separated by a space and a comma. -/
def mapBody : List (String × String) → String
  | [] => ""
  | [e] => " " ++ e.1 ++ " " ++ ":" ++ " " ++ e.2
  | e :: e2 :: rest => " " ++ e.1 ++ " " ++ ":" ++ " " ++ e.2 ++ " " ++ "," ++ mapBody (e2 :: rest)

/-- Whether the first list is a prefix of the second, on characters. -/
def listStarts : List Char → List Char → Bool
  | [], _ => true
  | _ :: _, [] => false
  | n :: ns, h :: hs => n == h && listStarts ns hs

/-- Whether the first list occurs as a contiguous run inside the second. -/
def listSub : List Char → List Char → Bool
  | needle, [] => needle.isEmpty
  | needle, h :: hs => listStarts needle (h :: hs) || listSub needle hs

/-- Whether the first string occurs as a substring of the second. -/
def strSub (needle hay : String) : Bool := listSub needle.toList hay.toList

/-- Appending to an inert record leaves it unchanged. -/
theorem append_inert (f : Bool) (s : String) :
    Logging.append { no_space := f, oss := none } s = { no_space := f, oss := none } := rfl

/-- Appending to an active record with the flag clear writes a space and the value. -/
theorem append_active_false (b s : String) :
    Logging.append { no_space := false, oss := some b } s
      = { no_space := false, oss := some (b ++ " " ++ s) } := rfl

/-- Appending to an active record with the flag set consumes the flag and writes
only the value. -/
theorem append_active_true (b s : String) :
    Logging.append { no_space := true, oss := some b } s
      = { no_space := false, oss := some (b ++ s) } := rfl

/-- An append never changes whether the record is active. -/
theorem append_isActive (log : Logging) (s : String) :
    (log.append s).isActive = log.isActive := by
  cases log with
  | mk f o =>
    cases o with
    | none => rfl
    | some b => cases f <;> rfl

/-- The no-space manipulator never changes whether the record is active. -/
theorem noSpace_isActive (log : Logging) : (log.noSpace).isActive = log.isActive := rfl

/-- The sequence element loop never changes whether the record is active. -/
theorem seqLoop_isActive (es : List String) :
    ∀ log : Logging, (Logging.seqLoop log es).isActive = log.isActive := by
  induction es with
  | nil => intro log; rfl
  | cons e rest ih =>
    intro log
    cases rest with
    | nil => exact append_isActive log e
    | cons e2 rest2 =>
      show (Logging.seqLoop ((log.append e).append ",") (e2 :: rest2)).isActive = log.isActive
      rw [ih, append_isActive, append_isActive]

/-- The mapping entry loop never changes whether the record is active. -/
theorem mapLoop_isActive (es : List (String × String)) :
    ∀ log : Logging, (Logging.mapLoop log es).isActive = log.isActive := by
  induction es with
  | nil => intro log; rfl
  | cons e rest ih =>
    intro log
    cases rest with
    | nil =>
      show (((log.append e.1).append ":").append e.2).isActive = log.isActive
      rw [append_isActive, append_isActive, append_isActive]
    | cons e2 rest2 =>
      show (Logging.mapLoop ((((log.append e.1).append ":").append e.2).append ",")
        (e2 :: rest2)).isActive = log.isActive
      rw [ih, append_isActive, append_isActive, append_isActive, append_isActive]

/-- No streaming operation changes whether the record is active. -/
theorem applyOp_isActive (log : Logging) (op : LogOp) :
    (log.applyOp op).isActive = log.isActive := by
  cases op with
  | val s => exact append_isActive log s
  | noSep => rfl
  | boolVal b => exact append_isActive log _
  | pairVal f s =>
    show ((((((log.append _).append f).append ",").append s).append _)).isActive = log.isActive
    rw [append_isActive, append_isActive, append_isActive, append_isActive, append_isActive]
  | seq n es =>
    show ((Logging.seqLoop (((log.append n).noSpace).append _) es).append _).isActive
      = log.isActive
    rw [append_isActive, seqLoop_isActive, append_isActive, noSpace_isActive, append_isActive]
  | map n es =>
    show ((Logging.mapLoop (((log.append n).noSpace).append _) es).append _).isActive
      = log.isActive
    rw [append_isActive, mapLoop_isActive, append_isActive, noSpace_isActive, append_isActive]
  | opt v =>
    cases v with
    | some s =>
      show (((log.append _).append s).append _).isActive = log.isActive
      rw [append_isActive, append_isActive, append_isActive]
    | none => exact append_isActive log _
  | dur u c =>
    show ((log.append _).append _).isActive = log.isActive
    rw [append_isActive, append_isActive]

/-- A whole chain of streaming operations never changes whether the record is
active: the activity classification is decided at construction only. -/
theorem runOps_isActive (ops : List LogOp) :
    ∀ log : Logging, (Logging.runOps log ops).isActive = log.isActive := by
  induction ops with
  | nil => intro log; rfl
  | cons op rest ih =>
    intro log
    show (Logging.runOps (log.applyOp op) rest).isActive = log.isActive
    rw [ih, applyOp_isActive]

/-- The destructor of a record without a stream writes nothing. -/
theorem destruct_of_inert (log : Logging) (h : log.oss = none) : log.destruct = none := by
  simp [Logging.destruct, h]

/-- The destructor of a record holding a buffer writes the buffer, a newline,
and flushes. -/
theorem destruct_of_active (log : Logging) (b : String) (h : log.oss = some b) :
    log.destruct = some { text := b ++ "\n", flushed := true } := by
  simp [Logging.destruct, h]

/-- An inactive record holds no stream. -/
theorem oss_eq_none_of_not_active (log : Logging) (h : log.isActive = false) :
    log.oss = none := by
  cases log with
  | mk f o =>
    cases o with
    | none => rfl
    | some b => simp [Logging.isActive] at h

/-- A record whose severity is strictly below the threshold is the
default-constructed (inert) object. -/
theorem mkLogging_inert (S T : LogLevel) (ls f : String) (line : Int) (tm : String)
    (h : LogLevel.lt S T = true) : mkLogging S T ls f line tm = {} := by
  simp [mkLogging, h]

/-- A record whose severity is not below the threshold is active and starts with
the header. -/
theorem mkLogging_active (S T : LogLevel) (ls f : String) (line : Int) (tm : String)
    (h : LogLevel.lt S T = false) :
    mkLogging S T ls f line tm
      = { no_space := false, oss := some (header ls tm f line) } := by
  simp [mkLogging, h]

/-- Running a chain of generic appends and no-space requests on an active record
appends exactly the spec-level rendering and leaves the flag at its spec-level
final state. -/
theorem runOps_gen (ops : List LogOp) :
    ∀ (f : Bool) (b : String), (∀ op ∈ ops, op.isGen = true) →
      Logging.runOps { no_space := f, oss := some b } ops
        = { no_space := genFlagEnd f ops, oss := some (b ++ renderGen f ops) } := by
  induction ops with
  | nil => intro f b _; simp [Logging.runOps, genFlagEnd, renderGen]
  | cons op rest ih =>
    intro f b hg
    have hg2 : ∀ op ∈ rest, op.isGen = true := fun o ho => hg o (List.mem_cons_of_mem _ ho)
    cases op with
    | val s =>
      show Logging.runOps (Logging.append { no_space := f, oss := some b } s) rest = _
      cases f with
      | false =>
        rw [append_active_false, ih false _ hg2]
        simp [renderGen, genFlagEnd, String.append_assoc]
      | true =>
        rw [append_active_true, ih false _ hg2]
        simp [renderGen, genFlagEnd, String.append_assoc]
    | noSep =>
      show Logging.runOps { no_space := true, oss := some b } rest = _
      rw [ih true _ hg2]
      simp [renderGen, genFlagEnd]
    | boolVal v => exact absurd (hg _ (List.mem_cons_self _ _)) (by simp [LogOp.isGen])
    | pairVal x y => exact absurd (hg _ (List.mem_cons_self _ _)) (by simp [LogOp.isGen])
    | seq n es => exact absurd (hg _ (List.mem_cons_self _ _)) (by simp [LogOp.isGen])
    | map n es => exact absurd (hg _ (List.mem_cons_self _ _)) (by simp [LogOp.isGen])
    | opt v => exact absurd (hg _ (List.mem_cons_self _ _)) (by simp [LogOp.isGen])
    | dur u c => exact absurd (hg _ (List.mem_cons_self _ _)) (by simp [LogOp.isGen])

/-- The sequence element loop on an active record with a clear flag appends the
spec-level body. -/
theorem seqLoop_render (es : List String) :
    ∀ b : String, Logging.seqLoop { no_space := false, oss := some b } es
      = { no_space := false, oss := some (b ++ seqBody es) } := by
  induction es with
  | nil => intro b; simp [Logging.seqLoop, seqBody]
  | cons e rest ih =>
    intro b
    cases rest with
    | nil =>
      show Logging.append { no_space := false, oss := some b } e = _
      rw [append_active_false]
      simp [seqBody, String.append_assoc]
    | cons e2 rest2 =>
      show Logging.seqLoop
          ((Logging.append { no_space := false, oss := some b } e).append ",") (e2 :: rest2) = _
      rw [append_active_false, append_active_false, ih]
      simp [seqBody, String.append_assoc]

/-- The mapping entry loop on an active record with a clear flag appends the
spec-level body. -/
theorem mapLoop_render (es : List (String × String)) :
    ∀ b : String, Logging.mapLoop { no_space := false, oss := some b } es
      = { no_space := false, oss := some (b ++ mapBody es) } := by
  induction es with
  | nil => intro b; simp [Logging.mapLoop, mapBody]
  | cons e rest ih =>
    intro b
    cases rest with
    | nil =>
      show ((Logging.append { no_space := false, oss := some b } e.1).append ":").append e.2 = _
      rw [append_active_false, append_active_false, append_active_false]
      simp [mapBody, String.append_assoc]
    | cons e2 rest2 =>
      show Logging.mapLoop
          ((((Logging.append { no_space := false, oss := some b } e.1).append ":").append
            e.2).append ",") (e2 :: rest2) = _
      rw [append_active_false, append_active_false, append_active_false, append_active_false, ih]
      simp [mapBody, String.append_assoc]

/-- `LogSequence` on an active record with a clear flag: a space, the type name,
an opening brace, the body, a space, a closing brace. -/
theorem logSequence_render (log : Logging) (b name : String) (elems : List String)
    (h : log.oss = some b) (hf : log.no_space = false) :
    log.logSequence name elems
      = { no_space := false,
          oss := some (b ++ " " ++ name ++ "\x7b" ++ seqBody elems ++ " " ++ "\x7d") } := by
  cases log with
  | mk f o =>
    simp only at h hf
    subst h; subst hf
    show (Logging.seqLoop
        (((Logging.append { no_space := false, oss := some b } name).noSpace).append "\x7b")
        elems).append "\x7d" = _
    rw [append_active_false]
    show (Logging.seqLoop
        (Logging.append { no_space := true, oss := some (b ++ " " ++ name) } "\x7b") elems).append
        "\x7d" = _
    rw [append_active_true, seqLoop_render, append_active_false]

/-- `LogMapping` on an active record with a clear flag: a space, the type name,
an opening brace, the body, a space, a closing brace. -/
theorem logMapping_render (log : Logging) (b name : String) (entries : List (String × String))
    (h : log.oss = some b) (hf : log.no_space = false) :
    log.logMapping name entries
      = { no_space := false,
          oss := some (b ++ " " ++ name ++ "\x7b" ++ mapBody entries ++ " " ++ "\x7d") } := by
  cases log with
  | mk f o =>
    simp only at h hf
    subst h; subst hf
    show (Logging.mapLoop
        (((Logging.append { no_space := false, oss := some b } name).noSpace).append "\x7b")
        entries).append "\x7d" = _
    rw [append_active_false]
    show (Logging.mapLoop
        (Logging.append { no_space := true, oss := some (b ++ " " ++ name) } "\x7b")
        entries).append "\x7d" = _
    rw [append_active_true, mapLoop_render, append_active_false]

/-- Folding session commands only ever applies the streaming operations to the
record; level changes never touch it. -/
theorem foldl_stepCmd_record (cmds : List SessionCmd) :
    ∀ st : ProcState, (cmds.foldl stepCmd st).record = Logging.runOps st.record (streamOps cmds) := by
  induction cmds with
  | nil => intro st; rfl
  | cons c rest ih =>
    intro st
    cases c with
    | setLevel l =>
      show (rest.foldl stepCmd { st with current_level := BasicConfig l st.current_level }).record = _
      rw [ih]
      rfl
    | stream op =>
      show (rest.foldl stepCmd { st with record := st.record.applyOp op }).record = _
      rw [ih]
      rfl

/-- C1: a record constructed with severity S under threshold T is active iff
S ≥ T (numerically, T.toNat ≤ S.toNat); a discarded record puts zero bytes on
the output stream over its whole lifetime: construction and appends touch only
the in-memory buffer, and the destructor of an inert record writes nothing, for
every chain of append operations. -/
theorem record_active_iff_and_discarded_silent (S T : LogLevel) (ls f : String)
    (line : Int) (tm : String) :
    ((mkLogging S T ls f line tm).isActive = true ↔ T.toNat ≤ S.toNat)
    ∧ ∀ ops : List LogOp, S.toNat < T.toNat →
        outBytes ((Logging.runOps (mkLogging S T ls f line tm) ops).destruct) = "" := by
  constructor
  · cases h : LogLevel.lt S T with
    | true =>
      rw [mkLogging_inert S T ls f line tm h]
      simp only [LogLevel.lt, decide_eq_true_eq] at h
      show false = true ↔ T.toNat ≤ S.toNat
      simp only [Bool.false_eq_true, false_iff]
      omega
    | false =>
      rw [mkLogging_active S T ls f line tm h]
      simp only [LogLevel.lt, decide_eq_false_iff_not, Nat.not_lt] at h
      show true = true ↔ T.toNat ≤ S.toNat
      simp only [true_iff]
      omega
  · intro ops hlt
    have h : LogLevel.lt S T = true := by
      simp only [LogLevel.lt, decide_eq_true_eq]
      omega
    rw [mkLogging_inert S T ls f line tm h]
    have h2 : (Logging.runOps {} ops).isActive = false := by
      rw [runOps_isActive ops {}]
      rfl
    rw [destruct_of_inert _ (oss_eq_none_of_not_active _ h2)]
    rfl

/-- C1 witness: at severity DEBUG under threshold INFO, the severity is strictly
below the threshold and a whole lifetime with several appends writes nothing. -/
theorem record_active_witness :
    LogLevel.DEBUG.toNat < LogLevel.INFO.toNat
    ∧ outBytes ((Logging.runOps (mkLogging .DEBUG .INFO "DEBUG" "main.cpp" 11 "tick")
        [.val "hidden", .seq "std::vector" ["1"], .noSep, .boolVal true]).destruct) = "" :=
  ⟨by decide,
    (record_active_iff_and_discarded_silent .DEBUG .INFO "DEBUG" "main.cpp" 11 "tick").2
      [.val "hidden", .seq "std::vector" ["1"], .noSep, .boolVal true] (by decide)⟩

/-- C2 counterexample: the header does not directly abut the first appended
value. With one appended value `x`, the line the code flushes is
`[INFO][tick][a.cpp:10]: x` with a separating space, and the abutting form
`]:x` the claim predicts occurs nowhere in the output. -/
theorem header_abutting_cex :
    outBytes ((Logging.runOps (mkLogging .INFO .INFO "INFO" "a.cpp" 10 "tick")
        [.val "x"]).destruct) = "[INFO][tick][a.cpp:10]: x\n"
    ∧ strSub "]:x" "[INFO][tick][a.cpp:10]: x\n" = false :=
  ⟨by decide, by decide⟩

/-- C2 (amended): for every chain of generic appends and no-separator requests
on an active record, the flushed line is the header followed by each value
rendering, each preceded by a single separating space — including the first
value after the header — except that the space is omitted exactly once
immediately after a no-separator request (the flag is consumed and reset). -/
theorem gen_append_flush (S T : LogLevel) (ls f tm : String) (line : Int)
    (ops : List LogOp) (hA : LogLevel.lt S T = false) (hg : ops.all LogOp.isGen = true) :
    (Logging.runOps (mkLogging S T ls f line tm) ops).destruct
      = some { text := header ls tm f line ++ renderGen false ops ++ "\n", flushed := true } := by
  rw [mkLogging_active S T ls f line tm hA,
    runOps_gen ops false (header ls tm f line) (List.all_eq_true.mp hg)]
  exact destruct_of_active _ _ rfl

/-- C2 witness: at INFO under threshold INFO, appending `x`, a no-separator
request, `y` and `z` flushes `[INFO][tick][a.cpp:10]: xy z` plus a newline. -/
theorem gen_append_flush_witness :
    (LogLevel.lt .INFO .INFO = false
      ∧ ([LogOp.val "x", LogOp.noSep, LogOp.val "y", LogOp.val "z"].all LogOp.isGen) = true)
    ∧ (Logging.runOps (mkLogging .INFO .INFO "INFO" "a.cpp" 10 "tick")
        [LogOp.val "x", LogOp.noSep, LogOp.val "y", LogOp.val "z"]).destruct
      = some { text := "[INFO][tick][a.cpp:10]: xy z\n", flushed := true } :=
  ⟨⟨by decide, by decide⟩,
    gen_append_flush .INFO .INFO "INFO" "a.cpp" "tick" 10
      [LogOp.val "x", LogOp.noSep, LogOp.val "y", LogOp.val "z"] (by decide) (by decide)⟩

/-- C3: when a record reaches the end of its lifetime, if it holds a buffer the
destructor writes that buffer as one line terminated by a newline and flushes
the stream; if it is inert the destructor writes nothing. -/
theorem lifetime_end_flush (log : Logging) (buf : String) :
    (log.oss = some buf → log.destruct = some { text := buf ++ "\n", flushed := true })
    ∧ (log.oss = none → log.destruct = none) :=
  ⟨fun h => destruct_of_active log buf h, fun h => destruct_of_inert log h⟩

/-- C3 witness: an active record with buffer `msg` flushes `msg` plus a newline
with the stream flushed. -/
theorem lifetime_end_flush_witness :
    ({ no_space := false, oss := some "msg" } : Logging).oss = some "msg"
    ∧ ({ no_space := false, oss := some "msg" } : Logging).destruct
        = some { text := "msg" ++ "\n", flushed := true } :=
  ⟨rfl, (lifetime_end_flush { no_space := false, oss := some "msg" } "msg").1 rfl⟩

/-- C4 counterexample: a mapping with entries key1 to 1 and key2 to 2 renders as
`std::map{ key1 : 1 , key2 : 2 }` — a space precedes every element, colon,
comma and the closing brace — and the comma-joined no-space form
`std::map{key1:1,key2:2}` the claim predicts occurs nowhere in the output. -/
theorem container_render_cex :
    (Logging.logMapping { no_space := false, oss := some "H" } "std::map"
        [("key1", "1"), ("key2", "2")]).oss
      = some "H std::map\x7b key1 : 1 , key2 : 2 \x7d"
    ∧ strSub "std::map\x7bkey1:1,key2:2\x7d" "H std::map\x7b key1 : 1 , key2 : 2 \x7d" = false :=
  ⟨by decide, by decide⟩

/-- C4 (amended): a sequence, set or mapping appended to an active record
renders as the type name, an opening brace, then each element (for mappings:
key, colon, value) and each separating comma all preceded by one space, and a
space before the closing brace: `name{ e1 , e2 \x7d` and
`name{ k1 : v1 , k2 : v2 }` — because every piece goes through the generic
append, which writes a separating space first. -/
theorem container_render (log : Logging) (b ns nm : String) (elems : List String)
    (entries : List (String × String)) (h : log.oss = some b) (hf : log.no_space = false) :
    (log.logSequence ns elems).oss
      = some (b ++ " " ++ ns ++ "\x7b" ++ seqBody elems ++ " " ++ "\x7d")
    ∧ (log.logMapping nm entries).oss
      = some (b ++ " " ++ nm ++ "\x7b" ++ mapBody entries ++ " " ++ "\x7d") := by
  rw [logSequence_render log b ns elems h hf, logMapping_render log b nm entries h hf]
  exact ⟨rfl, rfl⟩

/-- C4 witness: a two-element vector and a one-entry map render with the spaced
body on a concrete active record. -/
theorem container_render_witness :
    (({ no_space := false, oss := some "H" } : Logging).oss = some "H"
      ∧ ({ no_space := false, oss := some "H" } : Logging).no_space = false)
    ∧ ((Logging.logSequence { no_space := false, oss := some "H" } "std::vector"
          ["1", "2"]).oss = some "H std::vector\x7b 1 , 2 \x7d"
      ∧ (Logging.logMapping { no_space := false, oss := some "H" } "std::map"
          [("key1", "1")]).oss = some "H std::map\x7b key1 : 1 \x7d") :=
  ⟨⟨rfl, rfl⟩,
    container_render { no_space := false, oss := some "H" } "H" "std::vector" "std::map"
      ["1", "2"] [("key1", "1")] rfl rfl⟩

/-- C5 counterexample: a duration of 1000 in millisecond granularity renders as
`1000 milliseconds` with a separating space (the count and the unit word are
two separate generic appends), and the substring `1000milliseconds` the claim
predicts occurs nowhere in the output. -/
theorem duration_render_cex :
    (Logging.appendDuration { no_space := false, oss := some "H" }
        ChronoUnit.milliseconds 1000).oss = some "H 1000 milliseconds"
    ∧ strSub "1000milliseconds" "H 1000 milliseconds" = false :=
  ⟨by decide, by decide⟩

/-- C5 (amended): a duration appended to an active record renders as its stored
count, a single separating space, and the unit word of its own granularity —
no unit conversion, but the count and the unit word are separated by one
space because each is its own generic append. -/
theorem duration_render (log : Logging) (b : String) (u : ChronoUnit) (c : Int)
    (h : log.oss = some b) (hf : log.no_space = false) :
    (log.appendDuration u c).oss = some (b ++ " " ++ toString c ++ " " ++ u.word) := by
  cases log with
  | mk f o =>
    simp only at h hf
    subst h; subst hf
    show ((Logging.append { no_space := false, oss := some b } (toString c)).append u.word).oss = _
    rw [append_active_false, append_active_false]

/-- C5 witness: one second renders as `1 seconds` on a concrete active record. -/
theorem duration_render_witness :
    (({ no_space := false, oss := some "H" } : Logging).oss = some "H"
      ∧ ({ no_space := false, oss := some "H" } : Logging).no_space = false)
    ∧ (Logging.appendDuration { no_space := false, oss := some "H" }
        ChronoUnit.seconds 1).oss = some "H 1 seconds" :=
  ⟨⟨rfl, rfl⟩,
    duration_render { no_space := false, oss := some "H" } "H" ChronoUnit.seconds 1 rfl rfl⟩

/-- C6 counterexample: an optional holding 42 renders as `std::optional{ 42 }`
with spaces inside the braces (three chained generic appends), and the
no-space form `std::optional{42}` the claim predicts occurs nowhere in the
output. -/
theorem optional_render_cex :
    (Logging.appendOptional { no_space := false, oss := some "H" } (some "42")).oss
      = some "H std::optional\x7b 42 \x7d"
    ∧ strSub "std::optional\x7b42\x7d" "H std::optional\x7b 42 \x7d" = false :=
  ⟨by decide, by decide⟩

/-- C6 (amended): an optional holding a value renders as
`std::optional{ value }` — a space on both sides of the value, since the
opening text, the value and the closing brace are three generic appends — and
an optional without a value renders as `std::optional{ nullopt }` exactly as
the claim states. -/
theorem optional_render (log : Logging) (b s : String) (h : log.oss = some b)
    (hf : log.no_space = false) :
    (log.appendOptional (some s)).oss
      = some (b ++ " " ++ "std::optional\x7b" ++ " " ++ s ++ " " ++ "\x7d")
    ∧ (log.appendOptional none).oss = some (b ++ " " ++ "std::optional\x7b nullopt \x7d") := by
  cases log with
  | mk f o =>
    simp only at h hf
    subst h; subst hf
    constructor
    · show (((Logging.append { no_space := false, oss := some b }
          "std::optional\x7b").append s).append "\x7d").oss = _
      rw [append_active_false, append_active_false, append_active_false]
    · show (Logging.append { no_space := false, oss := some b }
          "std::optional\x7b nullopt \x7d").oss = _
      rw [append_active_false]

/-- C6 witness: both optional cases on a concrete active record. -/
theorem optional_render_witness :
    (({ no_space := false, oss := some "H" } : Logging).oss = some "H"
      ∧ ({ no_space := false, oss := some "H" } : Logging).no_space = false)
    ∧ ((Logging.appendOptional { no_space := false, oss := some "H" } (some "42")).oss
        = some "H std::optional\x7b 42 \x7d"
      ∧ (Logging.appendOptional { no_space := false, oss := some "H" } none).oss
        = some "H std::optional\x7b nullopt \x7d") :=
  ⟨⟨rfl, rfl⟩,
    optional_render { no_space := false, oss := some "H" } "H" "42" rfl rfl⟩

/-- C7: a boolean appended to an active record renders as the literal text
`true` or `false`, never `1` or `0`, for both branches. -/
theorem bool_render (log : Logging) (b : String) (h : log.oss = some b)
    (hf : log.no_space = false) :
    ((log.appendBool true).oss = some (b ++ " " ++ "true")
      ∧ (log.appendBool false).oss = some (b ++ " " ++ "false"))
    ∧ (("true" : String) ≠ "1" ∧ ("false" : String) ≠ "0") := by
  cases log with
  | mk f o =>
    simp only at h hf
    subst h; subst hf
    refine ⟨⟨?_, ?_⟩, by decide, by decide⟩
    · show (Logging.append { no_space := false, oss := some b } "true").oss = _
      rw [append_active_false]
    · show (Logging.append { no_space := false, oss := some b } "false").oss = _
      rw [append_active_false]

/-- C7 witness: both boolean branches on a concrete active record. -/
theorem bool_render_witness :
    (({ no_space := false, oss := some "H" } : Logging).oss = some "H"
      ∧ ({ no_space := false, oss := some "H" } : Logging).no_space = false)
    ∧ ((Logging.appendBool { no_space := false, oss := some "H" } true).oss
        = some "H true"
      ∧ (Logging.appendBool { no_space := false, oss := some "H" } false).oss
        = some "H false") :=
  ⟨⟨rfl, rfl⟩, (bool_render { no_space := false, oss := some "H" } "H" rfl rfl).1⟩

/-- C8: the active or inert classification is decided exactly once, at
construction. The output of a whole session equals the output of running only
the streaming operations on the record constructed under the initial
threshold — interleaved threshold changes are never re-read by appends or by
the destructor — and the activity classification after any command sequence
equals the classification at construction. -/
theorem classification_decided_once (t0 S : LogLevel) (ls f : String) (line : Int)
    (tm : String) (cmds : List SessionCmd) :
    runSession t0 S ls f line tm cmds
      = (Logging.runOps (mkLogging S t0 ls f line tm) (streamOps cmds)).destruct
    ∧ (cmds.foldl stepCmd
        { current_level := t0, record := mkLogging S t0 ls f line tm }).record.isActive
      = (mkLogging S t0 ls f line tm).isActive := by
  constructor
  · show (cmds.foldl stepCmd
      { current_level := t0, record := mkLogging S t0 ls f line tm }).record.destruct = _
    rw [foldl_stepCmd_record]
  · rw [foldl_stepCmd_record]
    exact runOps_isActive (streamOps cmds) _

/-- C9: setting the threshold is idempotent: configuring X twice leaves the same
level as configuring it once, the getter then returns X, and every record
subsequently constructed gets the same classification either way. -/
theorem setThreshold_idempotent (X t : LogLevel) :
    BasicConfig X (BasicConfig X t) = BasicConfig X t
    ∧ GetCurrentLevel (BasicConfig X (BasicConfig X t)) = X
    ∧ ∀ (S : LogLevel) (ls f : String) (line : Int) (tm : String),
        mkLogging S (BasicConfig X (BasicConfig X t)) ls f line tm
          = mkLogging S (BasicConfig X t) ls f line tm :=
  ⟨rfl, rfl, fun _ _ _ _ _ => rfl⟩

/-- C10: appending an empty sequence or mapping to an active record appends the
type name and a brace pair whose content (a single space, then the closing
brace) holds no element rendering and no comma: the element loop never runs,
so no trailing or interior comma can appear. -/
theorem empty_container_render (log : Logging) (b ns nm : String) (h : log.oss = some b)
    (hf : log.no_space = false) :
    ((log.logSequence ns []).oss = some (b ++ " " ++ ns ++ "\x7b" ++ " " ++ "\x7d")
      ∧ (log.logMapping nm []).oss = some (b ++ " " ++ nm ++ "\x7b" ++ " " ++ "\x7d"))
    ∧ strSub "," (" " ++ "\x7d") = false := by
  refine ⟨⟨?_, ?_⟩, by decide⟩
  · rw [logSequence_render log b ns [] h hf]
    simp [seqBody]
  · rw [logMapping_render log b nm [] h hf]
    simp [mapBody]

/-- C10 witness: empty containers on a concrete active record. -/
theorem empty_container_render_witness :
    (({ no_space := false, oss := some "H" } : Logging).oss = some "H"
      ∧ ({ no_space := false, oss := some "H" } : Logging).no_space = false)
    ∧ (((Logging.logSequence { no_space := false, oss := some "H" } "std::vector" []).oss
        = some "H std::vector\x7b \x7d"
      ∧ (Logging.logMapping { no_space := false, oss := some "H" } "std::map" []).oss
        = some "H std::map\x7b \x7d")
      ∧ strSub "," (" " ++ "\x7d") = false) :=
  ⟨⟨rfl, rfl⟩,
    empty_container_render { no_space := false, oss := some "H" } "H" "std::vector"
      "std::map" rfl rfl⟩

end BasicLog
